import Mathlib

/-!
Shallow embedding of the Game of Life core from `src/game.rs`.

Conventions of the embedding:
* The Rust `u16` values inside `Column` and `Row` are modelled as `Nat`;
  the unchecked `u16` addition `self.0 + rhs` of the `Add` impls is
  modelled as addition reduced mod 2 ^ 16 (the wrap-around the machine
  type performs), written explicitly as `% 65536`.
* `&mut self` methods become state-passing functions returning the new
  value; the fallible `populate` returns `Except String Grid` (the
  `anyhow::Result` of the source).
* `Vec<T>` becomes `List T`; `Vec::get` becomes `List.getElem?`.
-/

set_option maxRecDepth 20000

/-- The two-state cell of `game.rs`: `Empty` or `Populated`. -/
inductive Cell where
  | Empty : Cell
  | Populated : Cell
deriving DecidableEq

/-- Embedding of `impl Default for Cell`: the default cell is empty. -/
def Cell.default : Cell := Cell.Empty

/-- Embedding of `Cell::populated`: a new populated cell. -/
def Cell.populated : Cell := Cell.Populated

/-- Embedding of `Cell::is_empty`. -/
def Cell.is_empty : Cell → Bool
  | Cell.Empty => true
  | Cell.Populated => false

/-- Embedding of `Cell::is_populated`. -/
def Cell.is_populated : Cell → Bool
  | Cell.Empty => false
  | Cell.Populated => true

/-- Embedding of `Cell::die` (`*self = Cell::Empty`) as a state-passing function. -/
def Cell.die : Cell → Cell := fun _ => Cell.Empty

/-- Embedding of `Cell::spawn` (`*self = Cell::Populated`) as a state-passing function. -/
def Cell.spawn : Cell → Cell := fun _ => Cell.Populated

/-- The `Column(u16)` newtype; the `u16` is modelled as `Nat`. -/
structure Column where
  val : Nat
deriving DecidableEq

/-- The `Row(u16)` newtype; the `u16` is modelled as `Nat`. -/
structure Row where
  val : Nat
deriving DecidableEq

/-- Embedding of `Column::new`. -/
def Column.new (column : Nat) : Column := ⟨column⟩

/-- Embedding of `Column::usize`: the cast `u16 -> usize` is lossless. -/
def Column.usize (c : Column) : Nat := c.val

/-- Embedding of `Column::try_sub`: checked subtraction, `Some` only when `lh > rh`. -/
def Column.try_sub (c : Column) (rh : Nat) : Option Column :=
  if c.val > rh then some ⟨c.val - rh⟩ else none

/-- Embedding of `impl Add<u16> for Column`: unchecked `u16` addition, modelled as
addition mod 2 ^ 16. -/
def Column.add (c : Column) (rhs : Nat) : Column := ⟨(c.val + rhs) % 65536⟩

/-- Embedding of `Row::new`. -/
def Row.new (row : Nat) : Row := ⟨row⟩

/-- Embedding of `Row::usize`: the cast `u16 -> usize` is lossless. -/
def Row.usize (r : Row) : Nat := r.val

/-- Embedding of `Row::try_sub`: checked subtraction, `Some` only when `lh > rh`. -/
def Row.try_sub (r : Row) (rh : Nat) : Option Row :=
  if r.val > rh then some ⟨r.val - rh⟩ else none

/-- Embedding of `impl Add<u16> for Row`: unchecked `u16` addition, modelled as
addition mod 2 ^ 16. -/
def Row.add (r : Row) (rhs : Nat) : Row := ⟨(r.val + rhs) % 65536⟩

/-- The `Coordinates` pair of `game.rs`. -/
structure Coordinates where
  column : Column
  row : Row
deriving DecidableEq

/-- Embedding of `Coordinates::new`. -/
def Coordinates.new (column : Column) (row : Row) : Coordinates := ⟨column, row⟩

/-- Embedding of `Coordinates::neighbours`, block by block in the push order of the
source: the three `column - 1` entries (each guarded by `try_sub`), the
three unconditional pushes, then the two `row - 1` entries. -/
def Coordinates.neighbours (s : Coordinates) : List Coordinates :=
  (match s.column.try_sub 1, s.row.try_sub 1 with
   | some column, some row => [Coordinates.new column row]
   | _, _ => []) ++
  (match s.column.try_sub 1 with
   | some column => [Coordinates.new column s.row]
   | none => []) ++
  (match s.column.try_sub 1 with
   | some column => [Coordinates.new column (s.row.add 1)]
   | none => []) ++
  [Coordinates.new s.column (s.row.add 1),
   Coordinates.new (s.column.add 1) (s.row.add 1),
   Coordinates.new (s.column.add 1) s.row] ++
  (match s.row.try_sub 1 with
   | some row => [Coordinates.new (s.column.add 1) row]
   | none => []) ++
  (match s.row.try_sub 1 with
   | some row => [Coordinates.new s.column row]
   | none => [])

/-- The `Grid` of `game.rs`: outer list is columns, inner lists are rows,
so `cells[x][y]` is the cell at column `x`, row `y`. -/
structure Grid where
  cells : List (List Cell)
deriving DecidableEq

/-- Embedding of `Grid::new`: `columns` columns of `rows` default (empty) cells. -/
def Grid.new (columns : Column) (rows : Row) : Grid :=
  ⟨List.replicate columns.usize (List.replicate rows.usize Cell.default)⟩

/-- Embedding of `Grid::cell`: `cells.get(column).and_then(row get)`, `None` out of
bounds. -/
def Grid.cell (g : Grid) (column_index : Column) (row_index : Row) : Option Cell :=
  match g.cells[column_index.usize]? with
  | some row => row[row_index.usize]?
  | none => none

/-- Embedding of `Grid::populate`: spawn the cell in place, or fail with the source's
out-of-bound error; the functional state-passing returns the whole grid
unchanged exactly when the result is an error. -/
def Grid.populate (g : Grid) (column_index : Column) (row_index : Row) :
    Except String Grid :=
  match g.cells[column_index.usize]? with
  | some row =>
    match row[row_index.usize]? with
    | some cell =>
      Except.ok ⟨g.cells.set column_index.usize (row.set row_index.usize cell.spawn)⟩
    | none => Except.error "Coordinates are out of bound."
  | none => Except.error "Coordinates are out of bound."

/-- Embedding of `Grid::neighbour_cells`: look every neighbour coordinate up and keep
the hits, in order. -/
def Grid.neighbour_cells (g : Grid) (column_index : Column) (row_index : Row) :
    List Cell :=
  ((Coordinates.new column_index row_index).neighbours).filterMap
    (fun c => g.cell c.column c.row)

/-- The populated-neighbour count the body of `Grid::next` computes:
a running sum over `neighbour_cells`. -/
def Grid.populatedNeighbours (g : Grid) (column : Column) (row : Row) : Nat :=
  (g.neighbour_cells column row).foldl
    (fun populated cell => if cell.is_populated then populated + 1 else populated) 0

/-- One iteration of the nested loop body of `Grid::next` at indices
`(i, j)`: build `Column`/`Row` through the `as u16` casts (mod 2 ^ 16),
count populated neighbours of the CURRENT grid, and make the cell die in
place when the count is below 2. -/
def Grid.stepCell (g : Grid) (i j : Nat) : Grid :=
  let column := Column.new (i % 65536)
  let row := Row.new (j % 65536)
  if g.populatedNeighbours column row < 2 then
    ⟨g.cells.set i ((g.cells.getD i []).set j (((g.cells.getD i []).getD j Cell.default).die))⟩
  else g

/-- Embedding of `Grid::next`: in-place nested loop over all indices; the inner range
is read from the grid as it is at that point of the pass, exactly as the
source re-reads `self.cells[i].len()`. -/
def Grid.next (g : Grid) : Grid :=
  (List.range g.cells.length).foldl
    (fun g1 i =>
      (List.range ((g1.cells.getD i []).length)).foldl
        (fun g2 j => g2.stepCell i j) g1)
    g

/-- Reference step per the snapshot claim: every populated-neighbour
count is taken from the grid as it was BEFORE the step (the snapshot
`g`), and all next-generation cells are written at once; the per-cell
rule is the same one `Grid.next` applies (die below 2 neighbours,
otherwise unchanged). -/
def Grid.nextSnapshotRef (g : Grid) : Grid :=
  ⟨(List.range g.cells.length).map (fun i =>
    (List.range ((g.cells.getD i []).length)).map (fun j =>
      if g.populatedNeighbours (Column.new (i % 65536)) (Row.new (j % 65536)) < 2 then
        ((g.cells.getD i []).getD j Cell.default).die
      else (g.cells.getD i []).getD j Cell.default))⟩

/-- Reachable grids: both dimensions fit in `u16` (as every grid built by
`Grid::new` does). -/
def Grid.wf (g : Grid) : Prop :=
  g.cells.length ≤ 65535 ∧ ∀ row ∈ g.cells, row.length ≤ 65535

instance (g : Grid) : Decidable g.wf := by
  unfold Grid.wf; infer_instance

/-- Rectangular grid of `W` columns and `H` rows (the shape every grid
reachable through the API has). -/
def Grid.rect (g : Grid) (W H : Nat) : Prop :=
  g.cells.length = W ∧ ∀ row ∈ g.cells, row.length = H

instance (g : Grid) (W H : Nat) : Decidable (g.rect W H) := by
  unfold Grid.rect; infer_instance

/-! ### Concrete input grids used by the claim theorems -/

/-- Build a grid by a sequence of `populate` calls (each pair is
`(column, row)`); a failing call leaves the grid as it was. -/
def populateAll (g : Grid) (l : List (Nat × Nat)) : Grid :=
  l.foldl (fun g p =>
    match g.populate (Column.new p.1) (Row.new p.2) with
    | Except.ok g2 => g2
    | Except.error _ => g) g

/-- A 5 by 5 grid holding the horizontal three-cell blinker: row 2 of
columns 1, 2 and 3 populated. -/
def blinker5 : Grid :=
  populateAll (Grid.new (Column.new 5) (Row.new 5)) [(1, 2), (2, 2), (3, 2)]

/-- A 5 by 5 grid with every cell populated. -/
def full5 : Grid := ⟨List.replicate 5 (List.replicate 5 Cell.Populated)⟩

/-- A 20 by 20 grid with exactly two isolated populated cells, at
column 2 row 3 and column 5 row 12 (the grid of the repository's own
isolated-cells test). -/
def grid20 : Grid :=
  populateAll (Grid.new (Column.new 20) (Row.new 20)) [(2, 3), (5, 12)]

/-! ### Helper lemmas about `Grid.cell` and in-place updates -/

/-- Normal form of `Grid.cell` in terms of lengths and `getD`. -/
theorem cell_eq_getD (g : Grid) (c : Column) (r : Row) :
    g.cell c r =
      if c.usize < g.cells.length then (g.cells.getD c.usize [])[r.usize]? else none := by
  unfold Grid.cell
  rcases h : g.cells[c.usize]? with _ | row
  · rw [List.getElem?_eq_none_iff] at h
    rw [if_neg (by omega)]
  · have hlt : c.usize < g.cells.length := by
      by_contra hge
      rw [List.getElem?_eq_none_iff.2 (by omega)] at h
      exact Option.noConfusion h
    rw [if_pos hlt, List.getD_eq_getElem?_getD, h]
    rfl

/-- Value of `getD` after a `set` on the outer list. -/
theorem getD_set (l : List (List Cell)) (i k : Nat) (R : List Cell) :
    (l.set i R).getD k [] = if i = k ∧ i < l.length then R else l.getD k [] := by
  simp only [List.getD_eq_getElem?_getD, List.getElem?_set]
  by_cases h1 : i = k
  · subst h1
    by_cases h2 : i < l.length
    · simp [h2]
    · have hnone : l[i]? = none := List.getElem?_eq_none_iff.2 (by omega)
      simp [h2, hnone]
  · simp [h1]

/-- Reading a cell of a grid whose cells were updated in place at
`(i, j)`. -/
theorem cell_set_grid (m : Grid) (i j : Nat) (v : Cell) (c : Column) (r : Row) :
    (Grid.mk (m.cells.set i ((m.cells.getD i []).set j v))).cell c r =
      if c.usize = i ∧ r.usize = j ∧ i < m.cells.length ∧
          j < (m.cells.getD i []).length then
        some v
      else m.cell c r := by
  rw [cell_eq_getD]
  dsimp only
  rw [List.length_set, getD_set]
  by_cases hc : c.usize < m.cells.length
  · rw [if_pos hc]
    by_cases hci : i = c.usize
    · have hil : i < m.cells.length := by omega
      rw [if_pos ⟨hci, hil⟩, List.getElem?_set]
      by_cases hrj : j = r.usize
      · by_cases hjl : j < (m.cells.getD i []).length
        · rw [if_pos hrj, if_pos hjl, if_pos ⟨hci.symm, hrj.symm, hil, hjl⟩]
        · rw [if_pos hrj, if_neg hjl, if_neg (fun hh => hjl hh.2.2.2)]
          rw [cell_eq_getD, if_pos hc, ← hci, ← hrj,
            List.getElem?_eq_none_iff.2 (by omega)]
      · rw [if_neg hrj, if_neg (fun hh => hrj hh.2.1.symm)]
        rw [cell_eq_getD, if_pos hc, ← hci]
    · rw [if_neg (fun hh => hci hh.1)]
      rw [if_neg (fun hh => hci hh.1.symm)]
      rw [cell_eq_getD, if_pos hc]
  · rw [if_neg hc]
    rw [if_neg (fun hh => hc (by rw [hh.1]; exact hh.2.2.1))]
    rw [cell_eq_getD, if_neg hc]

/-! ### Shape and monotonicity of the in-place pass -/

/-- Two grids with the same column count and the same length for every
column. -/
def sameShape (g m : Grid) : Prop :=
  m.cells.length = g.cells.length ∧
  ∀ k, (m.cells.getD k []).length = (g.cells.getD k []).length

theorem sameShape_refl (g : Grid) : sameShape g g := ⟨rfl, fun _ => rfl⟩

theorem sameShape_trans {g m m2 : Grid} (h1 : sameShape g m)
    (h2 : sameShape m m2) : sameShape g m2 :=
  ⟨h2.1.trans h1.1, fun k => (h2.2 k).trans (h1.2 k)⟩

/-- Grid `m` has the same shape as `g` and its populated cells are among those
of `g`. -/
def Grid.shrinks (g m : Grid) : Prop :=
  sameShape g m ∧
  ∀ (c : Column) (r : Row),
    m.cell c r = some Cell.Populated → g.cell c r = some Cell.Populated

theorem shrinks_refl (g : Grid) : g.shrinks g :=
  ⟨sameShape_refl g, fun _ _ h => h⟩

/-- Under equal shapes, a cell is absent in one grid exactly when it is
absent in the other. -/
theorem cell_none_of_sameShape {g m : Grid} (h : sameShape g m)
    (c : Column) (r : Row) : m.cell c r = none ↔ g.cell c r = none := by
  rw [cell_eq_getD, cell_eq_getD, h.1]
  by_cases hc : c.usize < g.cells.length
  · rw [if_pos hc, if_pos hc, List.getElem?_eq_none_iff,
      List.getElem?_eq_none_iff, h.2 c.usize]
  · rw [if_neg hc, if_neg hc]

/-- The counting loop of `Grid::next` as a `countP`. -/
theorem foldl_count_eq (l : List Cell) (n : Nat) :
    l.foldl (fun populated cell => if cell.is_populated then populated + 1 else populated) n
      = n + l.countP Cell.is_populated := by
  induction l generalizing n with
  | nil => simp [List.countP, List.countP.go]
  | cons a t ih =>
    rw [List.foldl_cons, ih, List.countP_cons]
    by_cases h : a.is_populated <;> (simp [h]; try omega)

/-- A shrunk grid contributes at most as many populated cells along any
list of coordinates. -/
theorem countP_filterMap_cell_le {g m : Grid} (hs : g.shrinks m) :
    ∀ L : List Coordinates,
      (L.filterMap (fun co => m.cell co.column co.row)).countP Cell.is_populated ≤
      (L.filterMap (fun co => g.cell co.column co.row)).countP Cell.is_populated := by
  intro L
  induction L with
  | nil => simp
  | cons co t ih =>
    rcases hm : m.cell co.column co.row with _ | x
    · have hg : g.cell co.column co.row = none :=
        (cell_none_of_sameShape hs.1 _ _).1 hm
      simp only [List.filterMap_cons, hm, hg]
      exact ih
    · rcases hg : g.cell co.column co.row with _ | y
      · have : m.cell co.column co.row = none :=
          (cell_none_of_sameShape hs.1 _ _).2 hg
        rw [this] at hm
        exact Option.noConfusion hm
      · simp only [List.filterMap_cons, hm, hg, List.countP_cons]
        cases x with
        | Empty =>
          have hx : Cell.is_populated Cell.Empty = false := rfl
          simp only [hx, if_neg]
          have : (if Cell.is_populated y = true then 1 else 0) ≥ 0 := by omega
          by_cases hy : Cell.is_populated y = true <;> simp [hy] <;> omega
        | Populated =>
          have : g.cell co.column co.row = some Cell.Populated := hs.2 co.column co.row hm
          rw [hg] at this
          have hy : y = Cell.Populated := by
            cases this
            rfl
          subst hy
          simp only [show Cell.is_populated Cell.Populated = true from rfl, if_pos]
          omega

/-- The populated-neighbour count never grows when the grid shrinks. -/
theorem populatedNeighbours_le_of_shrinks {g m : Grid} (hs : g.shrinks m)
    (c : Column) (r : Row) :
    m.populatedNeighbours c r ≤ g.populatedNeighbours c r := by
  unfold Grid.populatedNeighbours Grid.neighbour_cells
  rw [foldl_count_eq, foldl_count_eq]
  simpa using countP_filterMap_cell_le hs _

/-- The grid written by the die-branch of `Grid.stepCell`, named for
reuse. -/
theorem stepCell_eq (m : Grid) (i j : Nat) :
    m.stepCell i j =
      if m.populatedNeighbours (Column.new (i % 65536)) (Row.new (j % 65536)) < 2 then
        Grid.mk (m.cells.set i ((m.cells.getD i []).set j
          (((m.cells.getD i []).getD j Cell.default).die)))
      else m := rfl

/-- A cell after one loop-body iteration: unchanged, or freshly dead. -/
theorem stepCell_cell_cases (m : Grid) (i j : Nat) (c : Column) (r : Row) :
    (m.stepCell i j).cell c r = m.cell c r ∨
    (m.stepCell i j).cell c r = some Cell.Empty := by
  rw [stepCell_eq]
  by_cases h : m.populatedNeighbours (Column.new (i % 65536)) (Row.new (j % 65536)) < 2
  · rw [if_pos h, cell_set_grid]
    by_cases hc : c.usize = i ∧ r.usize = j ∧ i < m.cells.length ∧
        j < (m.cells.getD i []).length
    · rw [if_pos hc]
      right
      rfl
    · rw [if_neg hc]
      left
      rfl
  · rw [if_neg h]
    left
    rfl

theorem stepCell_cells_length (m : Grid) (i j : Nat) :
    (m.stepCell i j).cells.length = m.cells.length := by
  rw [stepCell_eq]
  split
  · exact List.length_set ..
  · rfl

theorem stepCell_row_length (m : Grid) (i j k : Nat) :
    ((m.stepCell i j).cells.getD k []).length = ((m.cells.getD k []).length) := by
  rw [stepCell_eq]
  split
  · dsimp only
    rw [getD_set]
    by_cases h : i = k ∧ i < m.cells.length
    · rw [if_pos h, List.length_set, ← h.1]
    · rw [if_neg h]
  · rfl

theorem stepCell_sameShape (m : Grid) (i j : Nat) : sameShape m (m.stepCell i j) :=
  ⟨stepCell_cells_length m i j, fun k => stepCell_row_length m i j k⟩

theorem stepCell_shrinks {g m : Grid} (hs : g.shrinks m) (i j : Nat) :
    g.shrinks (m.stepCell i j) := by
  refine ⟨sameShape_trans hs.1 (stepCell_sameShape m i j), fun c r h => ?_⟩
  rcases stepCell_cell_cases m i j c r with hc | hc
  · exact hs.2 c r (hc ▸ h)
  · rw [hc] at h
    exact absurd (Option.some.inj h) (fun hh => Cell.noConfusion hh)

theorem stepCell_preserves_empty {m : Grid} {c : Column} {r : Row}
    (h : m.cell c r = some Cell.Empty) (i j : Nat) :
    (m.stepCell i j).cell c r = some Cell.Empty := by
  rcases stepCell_cell_cases m i j c r with hc | hc
  · rw [hc, h]
  · exact hc

/-- The iterations of `Grid::next`, flattened to one list of index
pairs. -/
def stepFold (ps : List (Nat × Nat)) (m : Grid) : Grid :=
  ps.foldl (fun m p => m.stepCell p.1 p.2) m

theorem stepFold_sameShape (ps : List (Nat × Nat)) :
    ∀ m : Grid, sameShape m (stepFold ps m) := by
  induction ps with
  | nil => exact fun m => sameShape_refl m
  | cons p t ih =>
    intro m
    exact sameShape_trans (stepCell_sameShape m p.1 p.2) (ih (m.stepCell p.1 p.2))

theorem stepFold_shrinks {g : Grid} (ps : List (Nat × Nat)) :
    ∀ {m : Grid}, g.shrinks m → g.shrinks (stepFold ps m) := by
  induction ps with
  | nil => exact fun h => h
  | cons p t ih =>
    intro m hs
    exact ih (stepCell_shrinks hs p.1 p.2)

theorem stepFold_preserves_empty {c : Column} {r : Row} (ps : List (Nat × Nat)) :
    ∀ {m : Grid}, m.cell c r = some Cell.Empty →
      (stepFold ps m).cell c r = some Cell.Empty := by
  induction ps with
  | nil => exact fun h => h
  | cons p t ih =>
    intro m h
    exact ih (stepCell_preserves_empty h p.1 p.2)

/-- Processing a cell whose prior-generation neighbour count is below 2
leaves it dead, however the grid has shrunk so far in the pass. -/
theorem stepCell_kills {g m : Grid} (hs : g.shrinks m) {c r : Nat}
    (hc16 : c < 65536) (hr16 : r < 65536)
    (hcb : c < g.cells.length) (hrb : r < (g.cells.getD c []).length)
    (hcount : g.populatedNeighbours (Column.new c) (Row.new r) < 2) :
    (m.stepCell c r).cell (Column.new c) (Row.new r) = some Cell.Empty := by
  have hmc : c % 65536 = c := Nat.mod_eq_of_lt hc16
  have hmr : r % 65536 = r := Nat.mod_eq_of_lt hr16
  have hle := populatedNeighbours_le_of_shrinks hs (Column.new c) (Row.new r)
  rw [stepCell_eq, hmc, hmr, if_pos (by omega), cell_set_grid,
    if_pos ⟨rfl, rfl, by rw [hs.1.1]; exact hcb, by rw [hs.1.2 c]; exact hrb⟩]
  rfl

theorem stepFold_kills {g : Grid} {c r : Nat} (ps : List (Nat × Nat)) :
    ∀ {m : Grid}, g.shrinks m → (c, r) ∈ ps →
      c < 65536 → r < 65536 → c < g.cells.length →
      r < (g.cells.getD c []).length →
      g.populatedNeighbours (Column.new c) (Row.new r) < 2 →
      (stepFold ps m).cell (Column.new c) (Row.new r) = some Cell.Empty := by
  induction ps with
  | nil =>
    intro m _ hmem
    exact absurd hmem (List.not_mem_nil (c, r))
  | cons p t ih =>
    intro m hs hmem hc16 hr16 hcb hrb hcount
    rcases List.mem_cons.1 hmem with heq | htail
    · have heq2 : p = (c, r) := heq.symm
      subst heq2
      exact stepFold_preserves_empty t
        (stepCell_kills hs hc16 hr16 hcb hrb hcount)
    · exact ih (stepCell_shrinks hs p.1 p.2) htail hc16 hr16 hcb hrb hcount

/-- All index pairs `Grid::next` visits, in visiting order. -/
def gridPairs (g : Grid) : List (Nat × Nat) :=
  (List.range g.cells.length).flatMap (fun i =>
    (List.range ((g.cells.getD i []).length)).map (fun j => (i, j)))

/-- The nested loop of `Grid::next`, which re-reads each column length
from the partially mutated grid, equals the flat fold over the index
pairs of the starting grid: the pass never changes any length. -/
theorem foldl_inner_eq (g : Grid) :
    ∀ (is : List Nat) (m : Grid), sameShape g m →
      is.foldl
        (fun g1 i =>
          (List.range ((g1.cells.getD i []).length)).foldl
            (fun g2 j => g2.stepCell i j) g1) m
      = stepFold (is.flatMap (fun i =>
          (List.range ((g.cells.getD i []).length)).map (fun j => (i, j)))) m := by
  intro is
  induction is with
  | nil =>
    intro m _
    rfl
  | cons i t ih =>
    intro m hsh
    rw [List.foldl_cons, List.flatMap_cons]
    have hlen : (m.cells.getD i []).length = (g.cells.getD i []).length := hsh.2 i
    rw [hlen]
    have hinner :
        (List.range ((g.cells.getD i []).length)).foldl (fun g2 j => g2.stepCell i j) m
          = stepFold ((List.range ((g.cells.getD i []).length)).map (fun j => (i, j))) m := by
      unfold stepFold
      rw [List.foldl_map]
    rw [hinner]
    unfold stepFold
    rw [List.foldl_append]
    have hsh2 : sameShape g
        (stepFold ((List.range ((g.cells.getD i []).length)).map (fun j => (i, j))) m) :=
      sameShape_trans hsh (stepFold_sameShape _ m)
    exact ih _ hsh2

theorem next_eq_stepFold (g : Grid) : g.next = stepFold (gridPairs g) g :=
  foldl_inner_eq g (List.range g.cells.length) g (sameShape_refl g)

theorem mem_gridPairs {g : Grid} {c r : Nat} (hc : c < g.cells.length)
    (hr : r < (g.cells.getD c []).length) : (c, r) ∈ gridPairs g := by
  unfold gridPairs
  rw [List.mem_flatMap]
  exact ⟨c, List.mem_range.2 hc, List.mem_map.2 ⟨r, List.mem_range.2 hr, rfl⟩⟩

/-! ### Claim theorems -/

/-- C1: refuted on the code. `Grid::next` mutates cells in place while
still reading neighbours for later cells, so it differs from the
snapshot-then-write reference (`Grid.nextSnapshotRef`, built from the
claim's words with the same per-cell rule): on the horizontal blinker the
in-place pass kills the middle cell (2, 2), which the snapshot reference
keeps alive with its 2 populated neighbours. -/
theorem c1_next_differs_from_snapshot :
    Grid.next blinker5 ≠ Grid.nextSnapshotRef blinker5 ∧
    (Grid.nextSnapshotRef blinker5).cell (Column.new 2) (Row.new 2) =
      some Cell.Populated ∧
    (Grid.next blinker5).cell (Column.new 2) (Row.new 2) = some Cell.Empty := by
  refine ⟨by decide, by decide, by decide⟩

/-- C2: refuted on the code. After one `Grid.next` the 5 by 5 horizontal
blinker becomes the all-empty grid, not the vertical blinker: the middle
cell is populated with 2 populated prior-generation neighbours yet dies
(in-place mutation), and no empty cell is ever born (`next` has no
spawn). -/
theorem c2_blinker_dies_out :
    blinker5.cell (Column.new 2) (Row.new 2) = some Cell.Populated ∧
    blinker5.populatedNeighbours (Column.new 2) (Row.new 2) = 2 ∧
    Grid.next blinker5 = Grid.new (Column.new 5) (Row.new 5) := by
  refine ⟨by decide, by decide, by decide⟩

/-- C3: refuted on the code. In the fully populated 5 by 5 grid the
centre cell has 8 populated neighbours in the prior generation, yet it is
still populated after one `Grid.next`: the overpopulation rule is absent
from the code. -/
theorem c3_overpopulated_cell_survives :
    full5.populatedNeighbours (Column.new 2) (Row.new 2) = 8 ∧
    full5.cell (Column.new 2) (Row.new 2) = some Cell.Populated ∧
    (Grid.next full5).cell (Column.new 2) (Row.new 2) = some Cell.Populated := by
  refine ⟨by decide, by decide, by decide⟩

/-- C4: for every reachable grid and every in-bounds cell whose
populated-neighbour count in the prior generation is below 2, the cell is
empty after one `Grid.next`, whatever its current state; and the 20 by 20
grid with two isolated populated cells steps to the all-empty grid. -/
theorem c4_solitude_rule :
    (∀ g : Grid, g.wf → ∀ c r : Nat, c < g.cells.length →
      r < (g.cells.getD c []).length →
      g.populatedNeighbours (Column.new c) (Row.new r) < 2 →
      (g.next).cell (Column.new c) (Row.new r) = some Cell.Empty) ∧
    Grid.next grid20 = Grid.new (Column.new 20) (Row.new 20) := by
  constructor
  · intro g hwf c r hc hr hcount
    rw [next_eq_stepFold]
    refine stepFold_kills (gridPairs g) (shrinks_refl g) (mem_gridPairs hc hr)
      ?_ ?_ hc hr hcount
    · have := hwf.1
      omega
    · have hrow : g.cells.getD c [] ∈ g.cells := by
        rw [List.getD_eq_getElem?_getD, List.getElem?_eq_getElem hc]
        exact List.getElem_mem hc
      have := hwf.2 _ hrow
      omega
  · decide

/-- Witness for C4: the isolated cell at column 2, row 3 of the 20 by 20
example grid has 0 populated neighbours and is empty after one step. -/
theorem c4_solitude_rule_witness :
    (Grid.next grid20).cell (Column.new 2) (Row.new 3) = some Cell.Empty :=
  c4_solitude_rule.1 grid20 (by decide) 2 3 (by decide) (by decide) (by decide)

/-- C5: refuted on the code. `try_sub` uses strict `>`, so subtracting 1
from a coordinate equal to 1 already yields `None`: the enumeration at
(row 1, column 1) omits all five neighbours with a zero component and
returns only 3 coordinates, where the claim promises the full Moore
neighbourhood of 8 for every row, column at least 1. -/
theorem c5_neighbours_at_one_one :
    (Coordinates.new (Column.new 1) (Row.new 1)).neighbours =
      [Coordinates.new (Column.new 1) (Row.new 2),
       Coordinates.new (Column.new 2) (Row.new 2),
       Coordinates.new (Column.new 2) (Row.new 1)] ∧
    (Coordinates.new (Column.new 1) (Row.new 1)).neighbours.length = 3 ∧
    (Coordinates.new (Column.new 0) (Row.new 0)).neighbours.length = 3 := by
  refine ⟨by decide, by decide, by decide⟩

/-- Normal form of `Grid.populate` in terms of bounds: success writes the populated cell
at the requested spot, failure reports the out-of-bound error. -/
theorem populate_eq (g : Grid) (c : Column) (r : Row) :
    g.populate c r =
      if c.usize < g.cells.length ∧ r.usize < (g.cells.getD c.usize []).length then
        Except.ok (Grid.mk (g.cells.set c.usize
          ((g.cells.getD c.usize []).set r.usize Cell.Populated)))
      else Except.error "Coordinates are out of bound." := by
  unfold Grid.populate
  rcases hcol : g.cells[c.usize]? with _ | row
  · rw [List.getElem?_eq_none_iff] at hcol
    rw [if_neg (by omega)]
  · have hc : c.usize < g.cells.length := by
      by_contra hge
      rw [List.getElem?_eq_none_iff.2 (by omega)] at hcol
      exact Option.noConfusion hcol
    have hrowD : g.cells.getD c.usize [] = row := by
      rw [List.getD_eq_getElem?_getD, hcol]
      rfl
    dsimp only
    rcases hrow : row[r.usize]? with _ | cellv
    · have hge : row.length ≤ r.usize := List.getElem?_eq_none_iff.1 hrow
      rw [if_neg (by rw [hrowD]; omega)]
    · have hr : r.usize < row.length := by
        by_contra hge
        rw [List.getElem?_eq_none_iff.2 (by omega)] at hrow
        exact Option.noConfusion hrow
      rw [if_pos ⟨hc, by rw [hrowD]; omega⟩, hrowD]
      rfl

/-- C6: a freshly constructed `W` by `H` grid answers `cell` with an
empty cell exactly on coordinates with column below `W` and row below
`H`, and with `none` (not found) everywhere else; `cell` is a pure
function of the grid, so it has no side effects. -/
theorem c6_new_grid_cells (W H c r : Nat) :
    (Grid.new (Column.new W) (Row.new H)).cell (Column.new c) (Row.new r) =
      if c < W ∧ r < H then some Cell.Empty else none := by
  by_cases hc : c < W <;> by_cases hr : r < H <;>
    simp [cell_eq_getD, Grid.new, Column.usize, Row.usize, Column.new, Row.new,
      List.getElem?_replicate, hc, hr, Cell.default]

/-- C7: `populate` at a coordinate outside a rectangular `W` by `H` grid
fails with the out-of-bound error; in this functional model the grid is
returned unchanged exactly when the result is an error, so no cell is
mutated on failure. -/
theorem c7_populate_out_of_bounds (g : Grid) (W H : Nat) (c : Column) (r : Row)
    (hrect : g.rect W H) (hout : W ≤ c.val ∨ H ≤ r.val) :
    g.populate c r = Except.error "Coordinates are out of bound." := by
  rw [populate_eq]
  have hcv : c.usize = c.val := rfl
  have hrv : r.usize = r.val := rfl
  rcases hout with h | h
  · rw [if_neg]
    intro hh
    have hc := hh.1
    rw [hcv, hrect.1] at hc
    omega
  · rw [if_neg]
    intro hh
    have hc := hh.1
    have hrowmem : g.cells.getD c.usize [] ∈ g.cells := by
      rw [List.getD_eq_getElem?_getD, List.getElem?_eq_getElem hc]
      exact List.getElem_mem hc
    have hlen := hrect.2 _ hrowmem
    have hr2 := hh.2
    rw [hlen, hrv] at hr2
    omega

/-- Witness for C7: populating column 5 of a 2 by 3 grid fails. -/
theorem c7_populate_out_of_bounds_witness :
    (Grid.new (Column.new 2) (Row.new 3)).populate (Column.new 5) (Row.new 0) =
      Except.error "Coordinates are out of bound." :=
  c7_populate_out_of_bounds (Grid.new (Column.new 2) (Row.new 3)) 2 3
    (Column.new 5) (Row.new 0) (by decide) (by decide)

/-- C8: `populate` at an in-bounds coordinate (one where `cell` finds a
cell) succeeds, the populated cell then reads back as `Populated`, every
cell at any other coordinate is unchanged, and populating the same spot a
second time returns the identical grid. -/
theorem c8_populate_in_bounds (g : Grid) (c : Column) (r : Row)
    (h : (g.cell c r).isSome) :
    ∃ g2, g.populate c r = Except.ok g2 ∧
      g2.cell c r = some Cell.Populated ∧
      (∀ (c2 : Column) (r2 : Row), c2.val ≠ c.val ∨ r2.val ≠ r.val →
        g2.cell c2 r2 = g.cell c2 r2) ∧
      g2.populate c r = Except.ok g2 := by
  rw [cell_eq_getD] at h
  by_cases hc : c.usize < g.cells.length
  swap
  · rw [if_neg hc] at h
    exact absurd h (by simp)
  rw [if_pos hc] at h
  have hr : r.usize < (g.cells.getD c.usize []).length := by
    by_contra hge
    rw [List.getElem?_eq_none_iff.2 (by omega)] at h
    exact absurd h (by simp)
  refine ⟨Grid.mk (g.cells.set c.usize
      ((g.cells.getD c.usize []).set r.usize Cell.Populated)), ?_, ?_, ?_, ?_⟩
  · rw [populate_eq, if_pos ⟨hc, hr⟩]
  · rw [cell_set_grid, if_pos ⟨rfl, rfl, hc, hr⟩]
  · intro c2 r2 hne
    rw [cell_set_grid, if_neg]
    intro hh
    rcases hne with hne | hne
    · exact hne hh.1
    · exact hne hh.2.1
  · rw [populate_eq]
    dsimp only
    have hgd : (g.cells.set c.usize
          ((g.cells.getD c.usize []).set r.usize Cell.Populated)).getD c.usize []
        = (g.cells.getD c.usize []).set r.usize Cell.Populated := by
      rw [getD_set, if_pos ⟨rfl, hc⟩]
    rw [hgd, List.length_set, List.length_set, if_pos ⟨hc, hr⟩,
      List.set_set, List.set_set]

/-- Witness for C8: populating cell (0, 1) of a fresh 2 by 2 grid. -/
theorem c8_populate_in_bounds_witness :
    ∃ g2, (Grid.new (Column.new 2) (Row.new 2)).populate (Column.new 0) (Row.new 1) =
        Except.ok g2 ∧
      g2.cell (Column.new 0) (Row.new 1) = some Cell.Populated ∧
      (∀ (c2 : Column) (r2 : Row), c2.val ≠ 0 ∨ r2.val ≠ 1 →
        g2.cell c2 r2 = (Grid.new (Column.new 2) (Row.new 2)).cell c2 r2) ∧
      g2.populate (Column.new 0) (Row.new 1) = Except.ok g2 :=
  c8_populate_in_bounds (Grid.new (Column.new 2) (Row.new 2))
    (Column.new 0) (Row.new 1) (by decide)

/-- C9: one `Grid.next` never turns an empty or absent cell populated:
every cell populated after the step was populated before it, so the
populated set only shrinks and its size never grows. -/
theorem c9_step_never_populates (g : Grid) (c : Column) (r : Row)
    (h : (g.next).cell c r = some Cell.Populated) :
    g.cell c r = some Cell.Populated := by
  rw [next_eq_stepFold] at h
  exact (stepFold_shrinks (gridPairs g) (shrinks_refl g)).2 c r h

/-- Witness for C9: the centre of the fully populated 5 by 5 grid is
populated after the step, and the theorem recovers that it was populated
before. -/
theorem c9_step_never_populates_witness :
    full5.cell (Column.new 2) (Row.new 2) = some Cell.Populated :=
  c9_step_never_populates full5 (Column.new 2) (Row.new 2) (by decide)

/-- C10: below the `u16` bound the additions of `neighbours` are exact:
for column and row both under 65535 every produced coordinate stays
within one unit of the centre (no modular reduction happens anywhere).
At the bound the unchecked 16-bit addition overflows: 65535 + 1 wraps to
0, and the enumeration at column 65535 emits the wrapped coordinate
(0, 7) instead of a true neighbour, so `neighbours` is not faithful at
the upper bound of the coordinate type. -/
theorem c10_add_overflow_boundary :
    (∀ c r : Nat, c < 65535 → r < 65535 →
      ∀ co ∈ (Coordinates.new (Column.new c) (Row.new r)).neighbours,
        (co.column.val + 1 = c ∨ co.column.val = c ∨ co.column.val = c + 1) ∧
        (co.row.val + 1 = r ∨ co.row.val = r ∨ co.row.val = r + 1)) ∧
    (Column.new 65535).add 1 = Column.new 0 ∧
    (Row.new 65535).add 1 = Row.new 0 ∧
    Coordinates.new (Column.new 0) (Row.new 7) ∈
      (Coordinates.new (Column.new 65535) (Row.new 7)).neighbours := by
  refine ⟨?_, by decide, by decide, by decide⟩
  intro c r hc hr co hco
  obtain ⟨⟨cv⟩, ⟨rv⟩⟩ := co
  have hc1 : (c + 1) % 65536 = c + 1 := Nat.mod_eq_of_lt (by omega)
  have hr1 : (r + 1) % 65536 = r + 1 := Nat.mod_eq_of_lt (by omega)
  by_cases h1 : 1 < c <;> by_cases h2 : 1 < r <;>
    (simp only [Coordinates.neighbours, Coordinates.new, Column.try_sub, Row.try_sub,
      Column.add, Row.add, Column.new, Row.new, h1, h2, if_true, if_false,
      gt_iff_lt, hc1, hr1, List.mem_append, List.mem_cons,
      List.not_mem_nil, or_false, false_or, Coordinates.mk.injEq, Column.mk.injEq,
      Row.mk.injEq] at hco) <;>
    (dsimp only; omega)

/-- Witness for C10: the neighbour (6, 4) of (5, 3) satisfies the
within-one-unit property. -/
theorem c10_add_overflow_boundary_witness :
    ((Coordinates.new (Column.new 6) (Row.new 4)).column.val + 1 = 5 ∨
      (Coordinates.new (Column.new 6) (Row.new 4)).column.val = 5 ∨
      (Coordinates.new (Column.new 6) (Row.new 4)).column.val = 5 + 1) ∧
    ((Coordinates.new (Column.new 6) (Row.new 4)).row.val + 1 = 3 ∨
      (Coordinates.new (Column.new 6) (Row.new 4)).row.val = 3 ∨
      (Coordinates.new (Column.new 6) (Row.new 4)).row.val = 3 + 1) :=
  c10_add_overflow_boundary.1 5 3 (by decide) (by decide)
    (Coordinates.new (Column.new 6) (Row.new 4)) (by decide)
